import Mathlib

/-!
A shallow embedding of the contagion-simulation core of `src/pages/index.js`
(the "One Bad Apple" agent simulation).

Modelling conventions, chosen once and used throughout:

* JS numbers (IEEE doubles) are modelled as exact rationals `ℚ`; timestamps
  (`Date.now()` values, milliseconds) as integers `ℤ`.
* `Math.random()` draws are modelled by an explicit stream `rand : Nat → ℚ`
  of values, consumed in exactly the order the source draws them; facts that
  depend on randomness carry the hypothesis `0 ≤ rand i < 1`, which is the
  contract of `Math.random`.
* React state (`people`, `connections`, `statistics`, `infectionHistory`,
  `currentTime`, `infectionRadius`) and refs (`lastUpdateTimeRef`,
  `startTimeRef`, `maxStatsRef`) are threaded explicitly as fields of
  `SimState`; one call of the `animatePeople` frame callback is one
  application of `animateTick`.  State written through functional updaters
  (`setPeople(prev => ...)`, `setConnections(prev => ...)`,
  `setInfectionHistory(prev => ...)`) and refs are live and read from the
  threaded state.  The one exception is the *read* of `infectionHistory` at
  source lines 202-204: it comes straight out of the effect closure, and the
  effect's dependency array (line 258) is only
  `[simulationActive, infectionRadius]`, so that read sees the history as it
  was when the effect was activated, not the live one.  The tick functions
  therefore take this activation-time snapshot as an explicit
  `closureHistory` argument, held fixed across all ticks of one activation
  (`tickSeq`).
* `toFixed(1)` followed by the later `parseFloat` is modelled as decimal
  rounding to one fractional digit (`toFixed1`).
* `calculateDistance` returns `Math.sqrt (dx*dx + dy*dy)`; the source only
  ever compares it against a radius.  Over the reals,
  `Real.sqrt s < r ↔ 0 < r ∧ s < r * r` (for `s ≥ 0`), so the comparison is
  embedded as the decidable predicate `distanceLtB` on squared distances.
* Division by zero in `ℚ` yields `0` where JS would yield `NaN`/`Infinity`;
  the only division whose denominator can be zero is the infection rate of an
  empty population, a state the construction path cannot produce.
-/

attribute [local semireducible] Rat.mul Rat.add Rat.sub Rat.inv Rat.ofScientific

/-- The rectangle of valid coordinates (the spec's `RegionBounds`).  The
source stores it as `{ lng: {min, max}, lat: {min, max} }`; the four fields
are flattened here. -/
structure Bounds where
  lngMin : ℚ
  lngMax : ℚ
  latMin : ℚ
  latMax : ℚ
deriving DecidableEq

/-- `SF_BOUNDS` from the source: the fixed region used by `generatePeople`
and by the in-tick destination resampling. -/
def SF_BOUNDS : Bounds :=
  { lngMin := -122.51, lngMax := -122.39, latMin := 37.70, latMax := 37.80 }

/-- One agent record, with the exact fields the source objects carry. -/
structure Person where
  id : Nat
  coordinates : ℚ × ℚ
  destination : ℚ × ℚ
  color : String
  progress : ℚ
  isDestabilized : Bool
  infectionTime : Option ℤ
  speed : ℚ
deriving DecidableEq

/-- A transmission edge (the source's `connection` objects).  The source
stores the two agent ids only inside the string id `` `${source}-${target}` ``;
they are kept as separate numeric fields here, with `Conn.idString` giving
the string of the source. -/
structure Conn where
  sourceId : Nat
  targetId : Nat
  source : ℚ × ℚ
  target : ℚ × ℚ
  timestamp : ℤ
deriving DecidableEq

/-- The string id the source builds for a connection. -/
def Conn.idString (c : Conn) : String :=
  toString c.sourceId ++ "-" ++ toString c.targetId

/-- One point of the infection-history chart data. -/
structure HistPoint where
  time : ℚ
  infected : Nat
deriving DecidableEq

/-- The `statistics` React state.  After `setStatistics(maxStatsRef.current)`
in the animation loop the stored object no longer has a `totalAgents`
property, hence the `Option`. -/
structure Stats where
  totalAgents : Option Nat
  infectedAgents : Nat
  infectionRate : ℚ
deriving DecidableEq

/-- The `maxStatsRef` ref: the running maxima. -/
structure MaxStats where
  infectedAgents : Nat
  infectionRate : ℚ
deriving DecidableEq

/-- The whole mutable state of the simulation component. -/
structure SimState where
  people : List Person
  infectionRadius : ℚ
  statistics : Stats
  connections : List Conn
  infectionHistory : List HistPoint
  currentTime : ℚ
  startTime : ℤ
  lastUpdateTime : ℤ
  maxStats : MaxStats
deriving DecidableEq

/-- Decimal rounding to one fractional digit: the composite of the source's
`x.toFixed(1)` (which renders one decimal) and the `parseFloat` applied when
the value is read back. -/
def toFixed1 (q : ℚ) : ℚ := (round (q * 10) : ℤ) / 10

/-- `calculateDistance p1 p2 < r`, embedded without the square root:
`Math.sqrt (dx*dx + dy*dy) < r` holds over the reals iff
`0 < r ∧ dx*dx + dy*dy < r*r`. -/
def distanceLtB (p1 p2 : ℚ × ℚ) (r : ℚ) : Bool :=
  decide (0 < r ∧ (p1.1 - p2.1) * (p1.1 - p2.1) + (p1.2 - p2.2) * (p1.2 - p2.2) < r * r)

/-- The agent built by the `Array(count).fill().map((_, i) => ...)` body of
`generatePeople`.  Agent `i` consumes the eight `Math.random()` draws
`rand (8*i) .. rand (8*i+7)`, in source order: coordinates lng/lat,
destination lng/lat, three color channels, speed. -/
def mkPerson (bounds : Bounds) (rand : Nat → ℚ) (i : Nat) : Person :=
  { id := i
    coordinates := (bounds.lngMin + rand (8 * i) * (bounds.lngMax - bounds.lngMin),
                    bounds.latMin + rand (8 * i + 1) * (bounds.latMax - bounds.latMin))
    destination := (bounds.lngMin + rand (8 * i + 2) * (bounds.lngMax - bounds.lngMin),
                    bounds.latMin + rand (8 * i + 3) * (bounds.latMax - bounds.latMin))
    color := "rgb(" ++ toString ⌊rand (8 * i + 4) * 100⌋ ++ "," ++
             toString ⌊rand (8 * i + 5) * 155 + 100⌋ ++ "," ++
             toString ⌊rand (8 * i + 6) * 100⌋ ++ ")"
    progress := 0
    isDestabilized := false
    infectionTime := none
    speed := 1/500 + rand (8 * i + 7) * (1/500) }

/-- `generatePeople(count, bounds)`.  The source unconditionally executes
`people[0].isDestabilized = true` after building the array; with
`count ≤ 0` the array is empty (or `Array(count)` already throws a
`RangeError` for negative lengths), so the store to `people[0]` throws a
`TypeError` and no agent pool is produced — modelled as `none`. -/
def generatePeople (count : ℤ) (bounds : Bounds) (rand : Nat → ℚ) (now : ℤ) :
    Option (List Person) :=
  match (List.range count.toNat).map (mkPerson bounds rand) with
  | [] => none
  | p :: rest =>
    some ({ p with isDestabilized := true, infectionTime := some now,
                   color := "rgb(255, 50, 50)" } :: rest)

/-- One agent's movement update inside the animation loop, lines 113-140 of
the source.  `d1`, `d2` are the two `Math.random()` draws used (only) when a
new destination is needed. -/
def movePerson (bounds : Bounds) (dt : ℚ) (d1 d2 : ℚ) (p : Person) : Person :=
  let progress := p.progress + p.speed * (dt / 30)
  if 1 ≤ progress then
    { p with
      destination := (bounds.lngMin + d1 * (bounds.lngMax - bounds.lngMin),
                      bounds.latMin + d2 * (bounds.latMax - bounds.latMin))
      progress := 0 }
  else
    let step := min (p.speed * (dt / 30)) (1 / 100)
    { p with
      coordinates := (p.coordinates.1 + (p.destination.1 - p.coordinates.1) * step,
                      p.coordinates.2 + (p.destination.2 - p.coordinates.2) * step)
      progress := progress }

/-- The `prevPeople.map(...)` movement pass together with the
`infectedCount` accumulator.  Returns the moved agents, the count, and the
next unused index of the random stream.  The count is incremented only on
the non-arrival branch, exactly as in the source (the arrival branch
`return`s before the `if (updatedPerson.isDestabilized) infectedCount++`
line, so an agent that reaches its destination this frame is skipped). -/
def moveAll (bounds : Bounds) (dt : ℚ) (rand : Nat → ℚ) :
    List Person → Nat → List Person × Nat × Nat
  | [], ridx => ([], 0, ridx)
  | p :: rest, ridx =>
    if 1 ≤ p.progress + p.speed * (dt / 30) then
      let p' := movePerson bounds dt (rand ridx) (rand (ridx + 1)) p
      let r := moveAll bounds dt rand rest (ridx + 2)
      (p' :: r.1, r.2.1, r.2.2)
    else
      let p' := movePerson bounds dt (rand ridx) (rand (ridx + 1)) p
      let r := moveAll bounds dt rand rest ridx
      (p' :: r.1, if p'.isDestabilized then r.2.1 + 1 else r.2.1, r.2.2)

/-- The in-place state change `otherPerson.isDestabilized = true;
otherPerson.infectionTime = now; otherPerson.color = 'rgb(255, 50, 50)'`. -/
def infectPerson (now : ℤ) (p : Person) : Person :=
  { p with isDestabilized := true, infectionTime := some now,
           color := "rgb(255, 50, 50)" }

/-- The mutable state of the infection-detection pass: the (shared, in-place
mutated) agent array and the `newConnections` accumulator. -/
structure DetectState where
  people : List Person
  conns : List Conn
deriving DecidableEq

/-- The body of the inner `updatedPeople.forEach(otherPerson => ...)` loop
for one index `j`: if the agent at `j` is currently not destabilized and is
within the radius of `src`, it is infected in place and a connection is
recorded. -/
def infectAt (radius : ℚ) (now : ℤ) (src : Person) (s : DetectState) (j : Nat) :
    DetectState :=
  match s.people[j]? with
  | none => s
  | some other =>
    if other.isDestabilized = false ∧
        distanceLtB src.coordinates other.coordinates radius = true then
      { people := s.people.set j (infectPerson now other)
        conns := s.conns ++ [{ sourceId := src.id, targetId := other.id,
                               source := src.coordinates,
                               target := other.coordinates,
                               timestamp := now }] }
    else s

/-- The inner `forEach` over every index, with `src` the (frozen) reference
the outer loop holds. -/
def innerScan (radius : ℚ) (now : ℤ) (src : Person) (s : DetectState) : DetectState :=
  (List.range s.people.length).foldl (infectAt radius now src) s

/-- One step of the outer `updatedPeople.forEach(person => ...)` loop: the
array element at index `i` is read from the *current* (mutated) array; if it
is destabilized by now, it scans everyone. -/
def outerStep (radius : ℚ) (now : ℤ) (s : DetectState) (i : Nat) : DetectState :=
  match s.people[i]? with
  | none => s
  | some person =>
    if person.isDestabilized = true then innerScan radius now person s else s

/-- The whole proximity-detection pass of a tick (source lines 149-180),
run on the post-movement agents.  The source mutates the one shared
`updatedPeople` array while both loops are iterating over it. -/
def detectPass (radius : ℚ) (now : ℤ) (people : List Person) : DetectState :=
  (List.range people.length).foldl (outerStep radius now) ⟨people, []⟩

/-- The per-agent recoloring of source lines 183-199 (runs after the
detection pass; pure color change). -/
def colorFade (now : ℤ) (p : Person) : Person :=
  match p.infectionTime with
  | none => p
  | some t0 =>
    if p.isDestabilized = true then
      let timeSinceInfection : ℤ := now - t0
      if 10000 < timeSinceInfection then
        { p with color := "rgb(180, 0, 120)" }
      else
        let frac : ℚ := min ((timeSinceInfection : ℚ) / 10000) 1
        { p with color := "rgb(" ++ toString ⌊(255 : ℚ) - 75 * frac⌋ ++ ", " ++
                          toString ⌊(0 : ℚ) + 0 * frac⌋ ++ ", " ++
                          toString ⌊(50 : ℚ) + 70 * frac⌋ ++ ")" }
    else p

/-- `Math.max(...infectionHistory.map(h => h.infected))` for a nonempty
history (all values are naturals, so the fold seeded with 0 agrees). -/
def histMaxN : List HistPoint → Nat
  | [] => 0
  | h :: t => max h.infected (histMaxN t)

/-- Source lines 201-204: `Math.max` over the `infectionHistory` visible to
the `animatePeople` closure, `0` when it is empty.  That history is the one
captured when the effect was activated — the effect's dependency array is
only `[simulationActive, infectionRadius]`, so the `setInfectionHistory`
updates performed by later ticks never reach the running closure.  The
argument is therefore the activation-time snapshot (`closureHistory`), not
the live history. -/
def currentMaxInfected (closureHistory : List HistPoint) : Nat :=
  if 0 < closureHistory.length then histMaxN closureHistory else 0

/-- `timeDelta = now - lastUpdateTimeRef.current` (source lines 104-105):
the raw difference, with no clamping and no recomputation at resume. -/
def tickDelta (now lastUpdateTime : ℤ) : ℤ := now - lastUpdateTime

/-- The connections update of source lines 240-246: append the tick's new
connections, then drop every connection whose age is 2000 ms or more. -/
def updateConnections (now : ℤ) (prevConnections newConnections : List Conn) :
    List Conn :=
  (prevConnections ++ newConnections).filter
    (fun conn => decide (now - conn.timestamp < 2000))

/-- The `infectedCount` a tick computes (see `moveAll`). -/
def tickCounted (rand : Nat → ℚ) (now : ℤ) (s : SimState) : Nat :=
  (moveAll SF_BOUNDS ((tickDelta now s.lastUpdateTime : ℤ) : ℚ) rand s.people 0).2.1

/-- `finalInfectedCount = Math.max(infectedCount, currentMaxInfected)`
(source line 207), with `currentMaxInfected` taken over the stale
activation-time history. -/
def finalInfectedCount (closureHistory : List HistPoint) (rand : Nat → ℚ)
    (now : ℤ) (s : SimState) : Nat :=
  max (tickCounted rand now s) (currentMaxInfected closureHistory)

/-- `timeElapsed = (now - startTimeRef.current) / 1000` (source line 225). -/
def tickElapsedSeconds (now : ℤ) (s : SimState) : ℚ :=
  ((now - s.startTime : ℤ) : ℚ) / 1000

/-- One call of the `animatePeople` frame callback (source lines 103-248):
movement, proximity detection, recoloring, statistics maxima, history
append, connection append-and-evict, and the `lastUpdateTimeRef` update.
`closureHistory` is the `infectionHistory` captured by the effect closure at
activation: the historical-maximum candidate is computed from it, while the
append itself goes through the functional updater and therefore lands on
the live history `s.infectionHistory`. -/
def animateTick (closureHistory : List HistPoint) (rand : Nat → ℚ) (now : ℤ)
    (s : SimState) : SimState :=
  let timeDelta := tickDelta now s.lastUpdateTime
  let moved := moveAll SF_BOUNDS ((timeDelta : ℤ) : ℚ) rand s.people 0
  let updatedPeople := moved.1
  let afterInfection := detectPass s.infectionRadius now updatedPeople
  let faded := afterInfection.people.map (colorFade now)
  let fic := max moved.2.1 (currentMaxInfected closureHistory)
  let rate := toFixed1 ((fic : ℚ) / (updatedPeople.length : ℚ) * 100)
  let newMax : MaxStats := { infectedAgents := max s.maxStats.infectedAgents fic
                             infectionRate := max s.maxStats.infectionRate rate }
  let timeElapsed := tickElapsedSeconds now s
  { s with
    people := faded
    statistics := { totalAgents := none, infectedAgents := newMax.infectedAgents,
                    infectionRate := newMax.infectionRate }
    maxStats := newMax
    currentTime := timeElapsed
    infectionHistory := s.infectionHistory ++ [⟨toFixed1 timeElapsed, fic⟩]
    connections := updateConnections now s.connections afterInfection.conns
    lastUpdateTime := now }

/-- `handleRadiusChange` (source lines 327-329):
`setInfectionRadius(parseFloat(e.target.value))`, with no validation of any
kind — the parsed value is stored verbatim. -/
def handleRadiusChange (value : ℚ) (s : SimState) : SimState :=
  { s with infectionRadius := value }

/-- `handleReset` (source lines 308-324) generalized over the population
count it passes to `generatePeople` (the source always passes 200, see
`handleReset`).  `lastUpdateTime` and `infectionRadius` are *not* touched by
the source's reset. -/
def handleResetN (count : ℤ) (rand : Nat → ℚ) (now : ℤ) (s : SimState) :
    Option SimState :=
  match generatePeople count SF_BOUNDS rand now with
  | none => none
  | some initialPeople =>
    some { s with
      people := initialPeople
      connections := []
      maxStats := { infectedAgents := 1, infectionRate := 1/2 }
      statistics := { totalAgents := some initialPeople.length, infectedAgents := 1,
                      infectionRate := toFixed1 ((1 : ℚ) / (initialPeople.length : ℚ) * 100) }
      infectionHistory := [⟨0, 1⟩]
      currentTime := 0
      startTime := now }

/-- The source's `handleReset`: population 200 in `SF_BOUNDS`. -/
def handleReset (rand : Nat → ℚ) (now : ℤ) (s : SimState) : Option SimState :=
  handleResetN 200 rand now s

/-- The state after `k` animation frames of one effect activation, frame
`k` being called at time `τ k` with its own random stream `rand k`.  All
frames of one activation share the same closure, hence the same frozen
`closureHistory` (when the activation directly follows a reset, that
snapshot is `s0.infectionHistory = [(0, 1)]`). -/
def tickSeq (closureHistory : List HistPoint) (rand : Nat → Nat → ℚ)
    (τ : Nat → ℤ) (s0 : SimState) : Nat → SimState
  | 0 => s0
  | k + 1 => animateTick closureHistory (rand k) (τ k)
      (tickSeq closureHistory rand τ s0 k)

/-- The number of Infected agents in a pool — the literal "current Infected
count" of the specification (the source's `infectedCount` is *not* this, see
`moveAll`). -/
def destabCount (people : List Person) : Nat :=
  (people.filter (fun p => p.isDestabilized)).length

/-- Containment in a `Bounds` rectangle. -/
def inBounds (b : Bounds) (pt : ℚ × ℚ) : Prop :=
  b.lngMin ≤ pt.1 ∧ pt.1 ≤ b.lngMax ∧ b.latMin ≤ pt.2 ∧ pt.2 ≤ b.latMax

instance (b : Bounds) (pt : ℚ × ℚ) : Decidable (inBounds b pt) := by
  unfold inBounds; infer_instance

/-- Positional evolution of one agent record across (part of) a detection
pass: the pass never changes the motion fields, never modifies an agent that
is already destabilized, and an agent that is still susceptible afterwards
was not touched at all. -/
structure PersonEvolves (p q : Person) : Prop where
  idEq : p.id = q.id
  coordEq : p.coordinates = q.coordinates
  destEq : p.destination = q.destination
  progressEq : p.progress = q.progress
  speedEq : p.speed = q.speed
  frozen : p.isDestabilized = true → q = p
  untouched : q.isDestabilized = false → q = p

/-- Positional evolution of the whole agent array across (part of) a
detection pass. -/
def ListEvolves (P Q : List Person) : Prop :=
  Q.length = P.length ∧
  ∀ (k : Nat) (p q : Person), P[k]? = some p → Q[k]? = some q → PersonEvolves p q

/-- Agent ids coincide with array positions (true of every pool
`generatePeople` builds). -/
def IdsIndexed (P : List Person) : Prop :=
  ∀ (k : Nat) (p : Person), P[k]? = some p → p.id = k

/-- What is true of every connection the detection pass has recorded so far,
relative to the tick-start array `P0` and the current array `cur`. -/
def connFacts (P0 : List Person) (radius : ℚ) (now : ℤ) (cur : List Person)
    (e : Conn) : Prop :=
  e.timestamp = now ∧
  e.sourceId ≠ e.targetId ∧
  (∃ p, P0[e.targetId]? = some p ∧ p.isDestabilized = false ∧ e.target = p.coordinates) ∧
  (∃ p, P0[e.sourceId]? = some p ∧ e.source = p.coordinates) ∧
  (∃ q, cur[e.sourceId]? = some q ∧ q.isDestabilized = true) ∧
  distanceLtB e.source e.target radius = true

/-- How many recorded connections point at target id `k`. -/
def countTarget (cs : List Conn) (k : Nat) : Nat :=
  (cs.filter (fun e => decide (e.targetId = k))).length

/-- The detection-pass invariant, relative to the tick-start array `P0`:
the array evolves positionally; an agent that went from susceptible to
destabilized carries exactly the `infectPerson` update; every recorded
connection satisfies `connFacts`; and each agent is the target of exactly
one connection if it was infected during this pass, none otherwise. -/
def DetectInv (P0 : List Person) (radius : ℚ) (now : ℤ) (s : DetectState) : Prop :=
  ListEvolves P0 s.people ∧
  (∀ (k : Nat) (p q : Person), P0[k]? = some p → s.people[k]? = some q →
     p.isDestabilized = false → q.isDestabilized = true → q = infectPerson now p) ∧
  (∀ e ∈ s.conns, connFacts P0 radius now s.people e) ∧
  (∀ (k : Nat) (p q : Person), P0[k]? = some p → s.people[k]? = some q →
     countTarget s.conns k =
       if q.isDestabilized = true ∧ p.isDestabilized = false then 1 else 0)

/-- The outer-loop reference `src` still denotes a destabilized entry of the
current array with unchanged coordinates. -/
def SrcOK (cur : List Person) (src : Person) : Prop :=
  ∃ q, cur[src.id]? = some q ∧ q.isDestabilized = true ∧ q.coordinates = src.coordinates

/-- A convenient all-zero agent used to build the concrete configurations
below. -/
def basePerson : Person :=
  { id := 0, coordinates := (0, 0), destination := (0, 0), color := "x",
    progress := 0, isDestabilized := false, infectionTime := none, speed := 0 }

/-- Three agents on a line: agent 0 destabilized, agents 1 and 2 susceptible;
with radius 1, agent 1 is within reach of agent 0, and agent 2 is within
reach of agent 1 only. -/
def chainPeople : List Person :=
  [{ basePerson with
       id := 0
       coordinates := (0, 0)
       isDestabilized := true
       infectionTime := some 0 },
   { basePerson with
       id := 1
       coordinates := (9/10, 0) },
   { basePerson with
       id := 2
       coordinates := (9/5, 0) }]

/-- Agents 0 and 1 both destabilized, agent 2 susceptible and within radius
3/2 of both. -/
def twoSourcesPeople : List Person :=
  [{ basePerson with
       id := 0
       isDestabilized := true
       infectionTime := some 0 },
   { basePerson with
       id := 1
       coordinates := (2, 0)
       isDestabilized := true
       infectionTime := some 0 },
   { basePerson with
       id := 2
       coordinates := (1, 0) }]

/-- A single moving destabilized agent inside `SF_BOUNDS`. -/
def onePerson : Person :=
  { id := 0, coordinates := (-122.5, 37.75), destination := (-122.4, 37.75),
    color := "rgb(255, 50, 50)", progress := 0, isDestabilized := true,
    infectionTime := some 0, speed := 1/250 }

/-- A small concrete simulation state used to instantiate the general
theorems. -/
def sampleState : SimState :=
  { people := [onePerson], infectionRadius := 3/1000,
    statistics := { totalAgents := some 1, infectedAgents := 1, infectionRate := 100 },
    connections := [], infectionHistory := [⟨0, 1⟩], currentTime := 0,
    startTime := 0, lastUpdateTime := 0, maxStats := { infectedAgents := 1, infectionRate := 100 } }

/-- Two destabilized agents, far apart.  On 30 ms frames, agent 0 (speed
3/5) is counted on the first frame (`progress` reaches 3/5) but reaches its
destination on the second (`progress` would reach 6/5), where the arrival
branch returns before the `infectedCount++` line; agent 1 never moves and
is always counted.  So the source's `infectedCount` is 2 on the first frame
and 1 on the second. -/
def dipPeople : List Person :=
  [{ basePerson with
       id := 0
       destination := (1, 0)
       isDestabilized := true
       infectionTime := some 0
       speed := 3/5 },
   { basePerson with
       id := 1
       coordinates := (5, 5)
       destination := (5, 5)
       isDestabilized := true
       infectionTime := some 0 }]

/-- State whose two-tick run, with the activation-time history `[(0, 1)]`
frozen in the closure, appends 2 and then 1 to the history. -/
def dipState : SimState :=
  { sampleState with people := dipPeople, infectionRadius := 1/10 }

/-- An agent so slow that even an enormous `dt` keeps `progress` below 1. -/
def slowPerson : Person :=
  { id := 0, coordinates := (0, 0), destination := (1, 0), color := "x",
    progress := 0, isDestabilized := false, infectionTime := none,
    speed := 3/10000000000 }

/-- State for the pause/resume experiment: `lastUpdateTime = 0`, so a tick at
`now = 10^9` (a ten-million-second gap) sees the whole gap as `dt`. -/
def pausedState : SimState :=
  { sampleState with people := [slowPerson], infectionRadius := 1/1000 }

/-- A well-formed (non-inverted) rectangle. -/
def boundsWF (b : Bounds) : Prop := b.lngMin ≤ b.lngMax ∧ b.latMin ≤ b.latMax

/-- The `Math.random` contract: every draw lies in `[0, 1)`. -/
def randUnit (rand : Nat → ℚ) : Prop := ∀ i, 0 ≤ rand i ∧ rand i < 1

/-- Every agent of a pool has its position and destination inside the bounds
and a nonnegative speed. -/
def peopleOK (b : Bounds) (P : List Person) : Prop :=
  ∀ p ∈ P, inBounds b p.coordinates ∧ inBounds b p.destination ∧ 0 ≤ p.speed

/-- The sequence of infected counts stored in the history. -/
def histInfecteds (s : SimState) : List Nat :=
  s.infectionHistory.map (fun h => h.infected)

theorem lookup_lt {α : Type} {l : List α} {k : Nat} {a : α} (h : l[k]? = some a) :
    k < l.length := by
  rcases List.getElem?_eq_some_iff.mp h with ⟨hk, _⟩
  exact hk

theorem lookup_of_lt {α : Type} (l : List α) {k : Nat} (h : k < l.length) :
    ∃ a, l[k]? = some a :=
  ⟨l[k], List.getElem?_eq_getElem h⟩

theorem personEvolves_refl (p : Person) : PersonEvolves p p :=
  ⟨rfl, rfl, rfl, rfl, rfl, fun _ => rfl, fun _ => rfl⟩

theorem personEvolves_trans {p q r : Person}
    (h1 : PersonEvolves p q) (h2 : PersonEvolves q r) : PersonEvolves p r := by
  refine ⟨h1.idEq.trans h2.idEq, h1.coordEq.trans h2.coordEq,
    h1.destEq.trans h2.destEq, h1.progressEq.trans h2.progressEq,
    h1.speedEq.trans h2.speedEq, ?_, ?_⟩
  · intro hp
    have hq : q = p := h1.frozen hp
    have : r = q := h2.frozen (hq ▸ hp)
    exact this.trans hq
  · intro hr
    have hrq : r = q := h2.untouched hr
    have hq : q.isDestabilized = false := hrq ▸ hr
    exact hrq.trans (h1.untouched hq)

theorem listEvolves_refl (P : List Person) : ListEvolves P P := by
  refine ⟨rfl, fun k p q hp hq => ?_⟩
  rw [hp] at hq
  cases hq
  exact personEvolves_refl p

theorem listEvolves_trans {P Q R : List Person}
    (h1 : ListEvolves P Q) (h2 : ListEvolves Q R) : ListEvolves P R := by
  refine ⟨h2.1.trans h1.1, fun k p r hp hr => ?_⟩
  have hk : k < Q.length := by
    have hl := lookup_lt hr
    have he := h2.1
    omega
  rcases lookup_of_lt Q hk with ⟨q, hq⟩
  exact personEvolves_trans (h1.2 k p q hp hq) (h2.2 k q r hq hr)

theorem listEvolves_destab {P Q : List Person} (h : ListEvolves P Q) {k : Nat}
    {p : Person} (hp : P[k]? = some p) (hd : p.isDestabilized = true) :
    Q[k]? = some p := by
  have hk : k < Q.length := by
    have hl := lookup_lt hp
    have he := h.1
    omega
  rcases lookup_of_lt Q hk with ⟨q, hq⟩
  have := (h.2 k p q hp hq).frozen hd
  rw [hq, this]

theorem infectPerson_isDestabilized (now : ℤ) (p : Person) :
    (infectPerson now p).isDestabilized = true := rfl

theorem infectAt_evolves (radius : ℚ) (now : ℤ) (src : Person) (s : DetectState)
    (j : Nat) : ListEvolves s.people (infectAt radius now src s j).people := by
  unfold infectAt
  split
  · exact listEvolves_refl _
  · rename_i other hj
    split
    · rename_i hc
      refine ⟨List.length_set .., fun k p q hp hq => ?_⟩
      by_cases hkj : j = k
      · subst hkj
        rw [hp] at hj
        cases hj
        rw [List.getElem?_set_self (lookup_lt hp)] at hq
        cases hq
        refine ⟨rfl, rfl, rfl, rfl, rfl, ?_, ?_⟩
        · intro hdp
          simp [hdp] at hc
        · intro hdq
          simp [infectPerson] at hdq
      · rw [List.getElem?_set_ne hkj] at hq
        rw [hp] at hq
        cases hq
        exact personEvolves_refl p
    · exact listEvolves_refl _

theorem foldl_evolves {f : DetectState → Nat → DetectState}
    (hf : ∀ s j, ListEvolves s.people (f s j).people) :
    ∀ (l : List Nat) (s : DetectState), ListEvolves s.people (l.foldl f s).people := by
  intro l
  induction l with
  | nil => intro s; exact listEvolves_refl _
  | cons a t ih =>
    intro s
    exact listEvolves_trans (hf s a) (ih (f s a))

theorem innerScan_evolves (radius : ℚ) (now : ℤ) (src : Person) (s : DetectState) :
    ListEvolves s.people (innerScan radius now src s).people :=
  foldl_evolves (infectAt_evolves radius now src) _ s

theorem outerStep_evolves (radius : ℚ) (now : ℤ) (s : DetectState) (i : Nat) :
    ListEvolves s.people (outerStep radius now s i).people := by
  unfold outerStep
  split
  · exact listEvolves_refl _
  · rename_i person hi
    split
    · exact innerScan_evolves radius now person s
    · exact listEvolves_refl _

theorem detectPass_evolves (radius : ℚ) (now : ℤ) (people : List Person) :
    ListEvolves people (detectPass radius now people).people :=
  foldl_evolves (outerStep_evolves radius now) _ ⟨people, []⟩

theorem setInfect_evolves (now : ℤ) (P : List Person) (j : Nat) (other : Person)
    (hj : P[j]? = some other) (hsusc : other.isDestabilized = false) :
    ListEvolves P (P.set j (infectPerson now other)) := by
  refine ⟨List.length_set .., fun k p q hp hq => ?_⟩
  by_cases hkj : j = k
  · subst hkj
    rw [hp] at hj
    cases hj
    rw [List.getElem?_set_self (lookup_lt hp)] at hq
    cases hq
    refine ⟨rfl, rfl, rfl, rfl, rfl, ?_, ?_⟩
    · intro hdp
      rw [hdp] at hsusc
      cases hsusc
    · intro hdq
      simp [infectPerson] at hdq
  · rw [List.getElem?_set_ne hkj] at hq
    rw [hp] at hq
    cases hq
    exact personEvolves_refl p

theorem countTarget_append (cs : List Conn) (e : Conn) (k : Nat) :
    countTarget (cs ++ [e]) k = countTarget cs k + if e.targetId = k then 1 else 0 := by
  unfold countTarget
  rw [List.filter_append, List.length_append]
  congr 1
  by_cases h : e.targetId = k
  · simp [h]
  · simp [h]

theorem infectAt_inv (P0 : List Person) (radius : ℚ) (now : ℤ) (src : Person)
    (hidx : IdsIndexed P0) (s : DetectState) (j : Nat)
    (hs : SrcOK s.people src) (h : DetectInv P0 radius now s) :
    DetectInv P0 radius now (infectAt radius now src s j) ∧
      SrcOK (infectAt radius now src s j).people src := by
  obtain ⟨hev, hnew, hconns, hcount⟩ := h
  unfold infectAt
  split
  · exact ⟨⟨hev, hnew, hconns, hcount⟩, hs⟩
  · rename_i other hj
    split
    · rename_i hc
      obtain ⟨hsusc, hdist⟩ := hc
      have hjlt : j < s.people.length := lookup_lt hj
      have hjlt0 : j < P0.length := by
        have := hev.1
        omega
      obtain ⟨p0j, hp0j⟩ := lookup_of_lt P0 hjlt0
      have hother_eq : other = p0j := (hev.2 j p0j other hp0j hj).untouched hsusc
      have hp0j' : P0[j]? = some other := by rw [hother_eq]; exact hp0j
      have hjid : other.id = j := hidx j other hp0j'
      obtain ⟨qs, hqs, hqsd, hqscoord⟩ := hs
      have hsrcne : src.id ≠ j := by
        intro hEq
        rw [hEq, hj] at hqs
        cases hqs
        rw [hqsd] at hsusc
        cases hsusc
      have hslt : src.id < s.people.length := lookup_lt hqs
      have hslt0 : src.id < P0.length := by
        have := hev.1
        omega
      obtain ⟨p0s, hp0s⟩ := lookup_of_lt P0 hslt0
      have hscoord : p0s.coordinates = src.coordinates :=
        ((hev.2 src.id p0s qs hp0s hqs).coordEq).trans hqscoord
      have hjne : j ≠ src.id := fun hh => hsrcne hh.symm
      refine ⟨⟨?_, ?_, ?_, ?_⟩, ?_⟩
      · exact listEvolves_trans hev (setInfect_evolves now s.people j other hj hsusc)
      · intro k p q hp hq hpd hqd
        by_cases hkj : j = k
        · subst hkj
          rw [List.getElem?_set_self hjlt] at hq
          cases hq
          rw [hp0j'] at hp
          cases hp
          rfl
        · rw [List.getElem?_set_ne hkj] at hq
          exact hnew k p q hp hq hpd hqd
      · intro e he
        rw [List.mem_append] at he
        rcases he with he | he
        · obtain ⟨hts, hne, htgt, hsrcf, hcur, hdf⟩ := hconns e he
          refine ⟨hts, hne, htgt, hsrcf, ?_, hdf⟩
          obtain ⟨qe, hqe, hqed⟩ := hcur
          by_cases hej : j = e.sourceId
          · rw [← hej, hj] at hqe
            cases hqe
            rw [hqed] at hsusc
            cases hsusc
          · exact ⟨qe, by rw [List.getElem?_set_ne hej]; exact hqe, hqed⟩
        · rw [List.mem_singleton] at he
          subst he
          unfold connFacts
          dsimp only
          refine ⟨rfl, ?_, ?_, ?_, ?_, hdist⟩
          · intro hh
            exact hsrcne (hh.trans hjid)
          · refine ⟨other, ?_, hsusc, rfl⟩
            rw [hjid]
            exact hp0j'
          · exact ⟨p0s, hp0s, hscoord.symm⟩
          · refine ⟨qs, ?_, hqsd⟩
            rw [List.getElem?_set_ne hjne]
            exact hqs
      · intro k p q hp hq
        rw [countTarget_append]
        dsimp only
        by_cases hkj : j = k
        · subst hkj
          rw [List.getElem?_set_self hjlt] at hq
          cases hq
          rw [hp0j'] at hp
          cases hp
          have himp : ¬(other.isDestabilized = true ∧ other.isDestabilized = false) := by
            rintro ⟨h1, h2⟩
            rw [h1] at h2
            cases h2
          have hpos : (infectPerson now other).isDestabilized = true ∧
              other.isDestabilized = false := ⟨rfl, hsusc⟩
          rw [hcount j other other hp0j' hj, if_pos hjid, if_neg himp, if_pos hpos]
        · rw [List.getElem?_set_ne hkj] at hq
          have hne2 : ¬(other.id = k) := fun hh => hkj (hjid.symm.trans hh)
          rw [hcount k p q hp hq, if_neg hne2]
          exact Nat.add_zero _
      · refine ⟨qs, ?_, hqsd, hqscoord⟩
        rw [List.getElem?_set_ne hjne]
        exact hqs
    · exact ⟨⟨hev, hnew, hconns, hcount⟩, hs⟩

theorem scanFold_inv (P0 : List Person) (radius : ℚ) (now : ℤ) (src : Person)
    (hidx : IdsIndexed P0) :
    ∀ (l : List Nat) (s : DetectState), DetectInv P0 radius now s →
      SrcOK s.people src →
      DetectInv P0 radius now (l.foldl (infectAt radius now src) s) ∧
        SrcOK (l.foldl (infectAt radius now src) s).people src := by
  intro l
  induction l with
  | nil => intro s h hs; exact ⟨h, hs⟩
  | cons a t ih =>
    intro s h hs
    obtain ⟨h', hs'⟩ := infectAt_inv P0 radius now src hidx s a hs h
    exact ih _ h' hs'

theorem outerStep_inv (P0 : List Person) (radius : ℚ) (now : ℤ)
    (hidx : IdsIndexed P0) (s : DetectState) (i : Nat)
    (h : DetectInv P0 radius now s) :
    DetectInv P0 radius now (outerStep radius now s i) := by
  unfold outerStep
  split
  · exact h
  · rename_i person hi
    split
    · rename_i hd
      have hlt0 : i < P0.length := by
        have h1 := h.1.1
        have h2 := lookup_lt hi
        omega
      obtain ⟨p0, hp0⟩ := lookup_of_lt P0 hlt0
      have hid : person.id = i := ((h.1.2 i p0 person hp0 hi).idEq.symm).trans (hidx i p0 hp0)
      have hsok : SrcOK s.people person := ⟨person, by rw [hid]; exact hi, hd, rfl⟩
      unfold innerScan
      exact (scanFold_inv P0 radius now person hidx _ s h hsok).1
    · exact h

theorem passFold_inv (P0 : List Person) (radius : ℚ) (now : ℤ)
    (hidx : IdsIndexed P0) :
    ∀ (l : List Nat) (s : DetectState), DetectInv P0 radius now s →
      DetectInv P0 radius now (l.foldl (outerStep radius now) s) := by
  intro l
  induction l with
  | nil => intro s h; exact h
  | cons a t ih =>
    intro s h
    exact ih _ (outerStep_inv P0 radius now hidx s a h)

theorem detectInv_init (P0 : List Person) (radius : ℚ) (now : ℤ) :
    DetectInv P0 radius now ⟨P0, []⟩ := by
  refine ⟨listEvolves_refl P0, ?_, ?_, ?_⟩
  · intro k p q hp hq hpd hqd
    rw [hp] at hq
    cases hq
    rw [hpd] at hqd
    cases hqd
  · intro e he
    cases he
  · intro k p q hp hq
    rw [hp] at hq
    cases hq
    have himp : ¬(p.isDestabilized = true ∧ p.isDestabilized = false) := by
      rintro ⟨h1, h2⟩
      rw [h1] at h2
      cases h2
    rw [if_neg himp]
    rfl

theorem detectPass_inv (radius : ℚ) (now : ℤ) (P0 : List Person)
    (hidx : IdsIndexed P0) :
    DetectInv P0 radius now (detectPass radius now P0) := by
  unfold detectPass
  exact passFold_inv P0 radius now hidx _ _ (detectInv_init P0 radius now)

theorem scanFold_infects (radius : ℚ) (now : ℤ) (src : Person) :
    ∀ (l : List Nat) (j : Nat), j ∈ l →
      ∀ (s : DetectState) (other : Person), s.people[j]? = some other →
        distanceLtB src.coordinates other.coordinates radius = true →
        ∃ q, ((l.foldl (infectAt radius now src) s).people)[j]? = some q ∧
          q.isDestabilized = true := by
  intro l
  induction l with
  | nil =>
    intro j hj
    cases hj
  | cons a t ih =>
    intro j hj s other hother hdist
    rw [List.foldl_cons]
    by_cases haj : a = j
    · subst haj
      have hstep : ∃ q, (infectAt radius now src s a).people[a]? = some q ∧
          q.isDestabilized = true := by
        unfold infectAt
        split
        · rename_i hnone
          rw [hother] at hnone
          cases hnone
        · rename_i other' hj'
          rw [hother] at hj'
          cases hj'
          split
          · exact ⟨infectPerson now other,
              by rw [List.getElem?_set_self (lookup_lt hother)], rfl⟩
          · rename_i hc
            have hdt : other.isDestabilized = true := by
              cases hb : other.isDestabilized
              · exact absurd ⟨hb, hdist⟩ hc
              · rfl
            exact ⟨other, hother, hdt⟩
      obtain ⟨q1, hq1, hq1d⟩ := hstep
      have hev := foldl_evolves (infectAt_evolves radius now src) t
        (infectAt radius now src s a)
      exact ⟨q1, listEvolves_destab hev hq1 hq1d, hq1d⟩
    · have hjt : j ∈ t := by
        rcases List.mem_cons.mp hj with h | h
        · exact absurd h.symm haj
        · exact h
      have hev1 := infectAt_evolves radius now src s a
      have hlt : j < (infectAt radius now src s a).people.length := by
        have h1 := hev1.1
        have h2 := lookup_lt hother
        omega
      obtain ⟨other', hother'⟩ := lookup_of_lt _ hlt
      have hco : other.coordinates = other'.coordinates :=
        (hev1.2 j other other' hother hother').coordEq
      exact ih j hjt _ other' hother' (by rw [← hco]; exact hdist)

theorem outerStep_infects (radius : ℚ) (now : ℤ) (s : DetectState) (i j : Nat)
    (A Bj : Person) (hiA : s.people[i]? = some A) (hAd : A.isDestabilized = true)
    (hBj : s.people[j]? = some Bj)
    (hdist : distanceLtB A.coordinates Bj.coordinates radius = true) :
    ∃ q, ((outerStep radius now s i).people)[j]? = some q ∧
      q.isDestabilized = true := by
  unfold outerStep
  split
  · rename_i hnone
    rw [hiA] at hnone
    cases hnone
  · rename_i person hp
    rw [hiA] at hp
    cases hp
    rw [if_pos hAd]
    unfold innerScan
    exact scanFold_infects radius now A _ j (List.mem_range.mpr (lookup_lt hBj))
      s Bj hBj hdist

theorem detectPass_infects (radius : ℚ) (now : ℤ) (P0 : List Person)
    (i j : Nat) (A B : Person) (hA : P0[i]? = some A)
    (hAd : A.isDestabilized = true) (hB : P0[j]? = some B)
    (hdist : distanceLtB A.coordinates B.coordinates radius = true) :
    ∃ q, ((detectPass radius now P0).people)[j]? = some q ∧
      q.isDestabilized = true := by
  unfold detectPass
  have hi : i ∈ List.range P0.length := List.mem_range.mpr (lookup_lt hA)
  obtain ⟨l1, l2, hsplit⟩ := List.append_of_mem hi
  rw [hsplit, List.foldl_append, List.foldl_cons]
  have hev1 : ListEvolves P0 (List.foldl (outerStep radius now) ⟨P0, []⟩ l1).people :=
    foldl_evolves (outerStep_evolves radius now) l1 ⟨P0, []⟩
  have hiA : (List.foldl (outerStep radius now) ⟨P0, []⟩ l1).people[i]? = some A :=
    listEvolves_destab hev1 hA hAd
  have hjlt : j < (List.foldl (outerStep radius now) ⟨P0, []⟩ l1).people.length := by
    have h1 := hev1.1
    have h2 := lookup_lt hB
    omega
  obtain ⟨Bj, hBj⟩ := lookup_of_lt _ hjlt
  have hBco : B.coordinates = Bj.coordinates := (hev1.2 j B Bj hB hBj).coordEq
  obtain ⟨q1, hq1, hq1d⟩ := outerStep_infects radius now
    (List.foldl (outerStep radius now) ⟨P0, []⟩ l1) i j A Bj hiA hAd hBj
    (by rw [← hBco]; exact hdist)
  have hev2 := foldl_evolves (outerStep_evolves radius now) l2
    (outerStep radius now (List.foldl (outerStep radius now) ⟨P0, []⟩ l1) i)
  exact ⟨q1, listEvolves_destab hev2 hq1 hq1d, hq1d⟩

theorem detectPass_target (radius : ℚ) (now : ℤ) (P0 : List Person)
    (hidx : IdsIndexed P0) (i j : Nat) (A B : Person)
    (hA : P0[i]? = some A) (hAd : A.isDestabilized = true)
    (hB : P0[j]? = some B) (hBs : B.isDestabilized = false)
    (hdist : distanceLtB A.coordinates B.coordinates radius = true) :
    (detectPass radius now P0).people[j]? = some (infectPerson now B) ∧
    countTarget (detectPass radius now P0).conns j = 1 ∧
    ∀ e ∈ (detectPass radius now P0).conns, e.targetId = j →
      e.target = B.coordinates ∧ e.timestamp = now ∧ e.sourceId ≠ j ∧
      distanceLtB e.source e.target radius = true := by
  obtain ⟨q, hq, hqd⟩ := detectPass_infects radius now P0 i j A B hA hAd hB hdist
  obtain ⟨hev, hnew, hconns, hcount⟩ := detectPass_inv radius now P0 hidx
  have hq' : q = infectPerson now B := hnew j B q hB hq hBs hqd
  refine ⟨by rw [← hq']; exact hq, ?_, ?_⟩
  · rw [hcount j B q hB hq, if_pos ⟨hqd, hBs⟩]
  · intro e he het
    obtain ⟨hts, hne, htgt, _, _, hdf⟩ := hconns e he
    obtain ⟨p, hp, _, hpt⟩ := htgt
    rw [het] at hp
    rw [hB] at hp
    cases hp
    exact ⟨hpt, hts, fun hh => hne (hh.trans het.symm), hdf⟩

theorem sample_mem {lo hi r : ℚ} (hb : lo ≤ hi) (h0 : 0 ≤ r) (h1 : r < 1) :
    lo ≤ lo + r * (hi - lo) ∧ lo + r * (hi - lo) ≤ hi := by
  constructor <;> nlinarith

theorem convex_step {x d s m M : ℚ} (hs0 : 0 ≤ s) (hs1 : s ≤ 1)
    (hx1 : m ≤ x) (hx2 : x ≤ M) (hd1 : m ≤ d) (hd2 : d ≤ M) :
    m ≤ x + (d - x) * s ∧ x + (d - x) * s ≤ M := by
  constructor <;> nlinarith

theorem step_bounds {speed dt : ℚ} (hsp : 0 ≤ speed) (hdt : 0 ≤ dt) :
    0 ≤ min (speed * (dt / 30)) (1 / 100) ∧
      min (speed * (dt / 30)) (1 / 100) ≤ 1 / 100 := by
  constructor
  · exact le_min (mul_nonneg hsp (by positivity)) (by norm_num)
  · exact min_le_right _ _

theorem movePerson_ok {b : Bounds} {dt d1 d2 : ℚ} {p : Person}
    (hb : boundsWF b) (hd10 : 0 ≤ d1) (hd11 : d1 < 1) (hd20 : 0 ≤ d2)
    (hd21 : d2 < 1) (hdt : 0 ≤ dt) (hsp : 0 ≤ p.speed)
    (hc : inBounds b p.coordinates) (hdst : inBounds b p.destination) :
    inBounds b (movePerson b dt d1 d2 p).coordinates ∧
      inBounds b (movePerson b dt d1 d2 p).destination ∧
      0 ≤ (movePerson b dt d1 d2 p).speed := by
  obtain ⟨hc1, hc2, hc3, hc4⟩ := hc
  obtain ⟨he1, he2, he3, he4⟩ := hdst
  unfold movePerson
  dsimp only
  split
  · refine ⟨⟨hc1, hc2, hc3, hc4⟩, ⟨?_, ?_, ?_, ?_⟩, hsp⟩
    · exact (sample_mem hb.1 hd10 hd11).1
    · exact (sample_mem hb.1 hd10 hd11).2
    · exact (sample_mem hb.2 hd20 hd21).1
    · exact (sample_mem hb.2 hd20 hd21).2
  · obtain ⟨hs0, hs1⟩ := step_bounds hsp hdt
    have hs1' : min (p.speed * (dt / 30)) (1 / 100) ≤ 1 := by linarith
    obtain ⟨ha1, ha2⟩ := convex_step hs0 hs1' hc1 hc2 he1 he2
    obtain ⟨hb1, hb2⟩ := convex_step hs0 hs1' hc3 hc4 he3 he4
    exact ⟨⟨ha1, ha2, hb1, hb2⟩, ⟨he1, he2, he3, he4⟩, hsp⟩

theorem moveAll_ok {b : Bounds} {dt : ℚ} {rand : Nat → ℚ}
    (hb : boundsWF b) (hr : randUnit rand) (hdt : 0 ≤ dt) :
    ∀ (P : List Person) (ridx : Nat), peopleOK b P →
      peopleOK b (moveAll b dt rand P ridx).1 := by
  intro P
  induction P with
  | nil =>
    intro ridx _ q hq
    cases hq
  | cons p rest ih =>
    intro ridx hP
    have hp := hP p (List.mem_cons_self p rest)
    have hrest : peopleOK b rest := fun q hq => hP q (List.mem_cons_of_mem p hq)
    unfold moveAll
    split
    · intro q hq
      rcases List.mem_cons.mp hq with h | h
      · subst h
        exact movePerson_ok hb (hr ridx).1 (hr ridx).2 (hr (ridx + 1)).1
          (hr (ridx + 1)).2 hdt hp.2.2 hp.1 hp.2.1
      · exact ih (ridx + 2) hrest q h
    · intro q hq
      rcases List.mem_cons.mp hq with h | h
      · subst h
        exact movePerson_ok hb (hr ridx).1 (hr ridx).2 (hr (ridx + 1)).1
          (hr (ridx + 1)).2 hdt hp.2.2 hp.1 hp.2.1
      · exact ih ridx hrest q h

theorem evolves_peopleOK {b : Bounds} {P Q : List Person}
    (h : ListEvolves P Q) (hP : peopleOK b P) : peopleOK b Q := by
  intro q hq
  obtain ⟨k, hk, hkq⟩ := List.mem_iff_getElem.mp hq
  have hq' : Q[k]? = some q := by
    rw [List.getElem?_eq_getElem hk, hkq]
  have hkP : k < P.length := by
    have := h.1
    omega
  obtain ⟨p, hp⟩ := lookup_of_lt P hkP
  have hpe := h.2 k p q hp hq'
  have hmem : p ∈ P := by
    rcases List.getElem?_eq_some_iff.mp hp with ⟨hlt, hget⟩
    rw [← hget]
    exact List.getElem_mem hlt
  obtain ⟨h1, h2, h3⟩ := hP p hmem
  rw [← hpe.coordEq, ← hpe.destEq, ← hpe.speedEq]
  exact ⟨h1, h2, h3⟩

theorem colorFade_fields (now : ℤ) (p : Person) :
    (colorFade now p).coordinates = p.coordinates ∧
    (colorFade now p).destination = p.destination ∧
    (colorFade now p).speed = p.speed ∧
    (colorFade now p).isDestabilized = p.isDestabilized ∧
    (colorFade now p).infectionTime = p.infectionTime ∧
    (colorFade now p).progress = p.progress := by
  unfold colorFade
  split
  · exact ⟨rfl, rfl, rfl, rfl, rfl, rfl⟩
  · split
    · dsimp only
      split
      · exact ⟨rfl, rfl, rfl, rfl, rfl, rfl⟩
      · exact ⟨rfl, rfl, rfl, rfl, rfl, rfl⟩
    · exact ⟨rfl, rfl, rfl, rfl, rfl, rfl⟩

theorem map_colorFade_ok {b : Bounds} (now : ℤ) {P : List Person}
    (h : peopleOK b P) : peopleOK b (P.map (colorFade now)) := by
  intro q hq
  obtain ⟨p, hp, hpq⟩ := List.mem_map.mp hq
  obtain ⟨h1, h2, h3⟩ := h p hp
  obtain ⟨f1, f2, f3, _, _, _⟩ := colorFade_fields now p
  rw [← hpq, f1, f2, f3]
  exact ⟨h1, h2, h3⟩

theorem sfBoundsWF : boundsWF SF_BOUNDS := by
  constructor <;> norm_num [SF_BOUNDS]

theorem animateTick_ok {closureHistory : List HistPoint} {rand : Nat → ℚ}
    {now : ℤ} {s : SimState}
    (hr : randUnit rand) (hdt : s.lastUpdateTime ≤ now)
    (h : peopleOK SF_BOUNDS s.people) :
    peopleOK SF_BOUNDS (animateTick closureHistory rand now s).people ∧
      (animateTick closureHistory rand now s).lastUpdateTime = now := by
  constructor
  · show peopleOK SF_BOUNDS
      ((detectPass s.infectionRadius now
        (moveAll SF_BOUNDS ((tickDelta now s.lastUpdateTime : ℤ) : ℚ) rand s.people 0).1).people.map
        (colorFade now))
    have hdt' : (0 : ℚ) ≤ ((tickDelta now s.lastUpdateTime : ℤ) : ℚ) := by
      have : (0 : ℤ) ≤ tickDelta now s.lastUpdateTime := by
        unfold tickDelta
        omega
      exact_mod_cast this
    have h1 := moveAll_ok sfBoundsWF hr hdt' s.people 0 h
    have h2 := evolves_peopleOK
      (detectPass_evolves s.infectionRadius now
        (moveAll SF_BOUNDS ((tickDelta now s.lastUpdateTime : ℤ) : ℚ) rand s.people 0).1) h1
    exact map_colorFade_ok now h2
  · rfl

theorem tickSeq_ok {closureHistory : List HistPoint} {rand : Nat → Nat → ℚ}
    {τ : Nat → ℤ} {s0 : SimState}
    (hr : ∀ k, randUnit (rand k)) (hτ0 : s0.lastUpdateTime ≤ τ 0)
    (hτ : ∀ k, τ k ≤ τ (k + 1)) (h0 : peopleOK SF_BOUNDS s0.people) :
    ∀ t, peopleOK SF_BOUNDS (tickSeq closureHistory rand τ s0 t).people ∧
      (tickSeq closureHistory rand τ s0 t).lastUpdateTime ≤ τ t := by
  intro t
  induction t with
  | zero => exact ⟨h0, hτ0⟩
  | succ k ih =>
    obtain ⟨hp, hl⟩ := animateTick_ok (hr k) ih.2 ih.1
    refine ⟨hp, ?_⟩
    show (animateTick closureHistory (rand k) (τ k)
      (tickSeq closureHistory rand τ s0 k)).lastUpdateTime ≤ τ (k + 1)
    rw [hl]
    exact hτ k

theorem mkPerson_ok {b : Bounds} {rand : Nat → ℚ} (hb : boundsWF b)
    (hr : randUnit rand) (i : Nat) :
    inBounds b (mkPerson b rand i).coordinates ∧
      inBounds b (mkPerson b rand i).destination ∧ 0 ≤ (mkPerson b rand i).speed := by
  refine ⟨⟨?_, ?_, ?_, ?_⟩, ⟨?_, ?_, ?_, ?_⟩, ?_⟩
  · exact (sample_mem hb.1 (hr (8 * i)).1 (hr (8 * i)).2).1
  · exact (sample_mem hb.1 (hr (8 * i)).1 (hr (8 * i)).2).2
  · exact (sample_mem hb.2 (hr (8 * i + 1)).1 (hr (8 * i + 1)).2).1
  · exact (sample_mem hb.2 (hr (8 * i + 1)).1 (hr (8 * i + 1)).2).2
  · exact (sample_mem hb.1 (hr (8 * i + 2)).1 (hr (8 * i + 2)).2).1
  · exact (sample_mem hb.1 (hr (8 * i + 2)).1 (hr (8 * i + 2)).2).2
  · exact (sample_mem hb.2 (hr (8 * i + 3)).1 (hr (8 * i + 3)).2).1
  · exact (sample_mem hb.2 (hr (8 * i + 3)).1 (hr (8 * i + 3)).2).2
  · have := (hr (8 * i + 7)).1
    show (0 : ℚ) ≤ 1 / 500 + rand (8 * i + 7) * (1 / 500)
    nlinarith

theorem generatePeople_ok {count : ℤ} {b : Bounds} {rand : Nat → ℚ} {now : ℤ}
    {P : List Person} (hb : boundsWF b) (hr : randUnit rand)
    (h : generatePeople count b rand now = some P) : peopleOK b P := by
  unfold generatePeople at h
  split at h
  · cases h
  · rename_i p rest heq
    cases h
    intro q hq
    rcases List.mem_cons.mp hq with h | h
    · have hmem : p ∈ (List.range count.toNat).map (mkPerson b rand) := by
        rw [heq]
        exact List.mem_cons_self p rest
      obtain ⟨i, _, hip⟩ := List.mem_map.mp hmem
      subst h
      show inBounds b p.coordinates ∧ inBounds b p.destination ∧ 0 ≤ p.speed
      rw [← hip]
      exact mkPerson_ok hb hr i
    · have hmem : q ∈ (List.range count.toNat).map (mkPerson b rand) := by
        rw [heq]
        exact List.mem_cons_of_mem p h
      obtain ⟨i, _, hip⟩ := List.mem_map.mp hmem
      rw [← hip]
      exact mkPerson_ok hb hr i

theorem animateTick_stats (closureHistory : List HistPoint) (rand : Nat → ℚ)
    (now : ℤ) (s : SimState) :
    (animateTick closureHistory rand now s).statistics.infectedAgents =
      (animateTick closureHistory rand now s).maxStats.infectedAgents ∧
    (animateTick closureHistory rand now s).statistics.infectionRate =
      (animateTick closureHistory rand now s).maxStats.infectionRate ∧
    s.maxStats.infectedAgents ≤
      (animateTick closureHistory rand now s).maxStats.infectedAgents ∧
    s.maxStats.infectionRate ≤
      (animateTick closureHistory rand now s).maxStats.infectionRate := by
  refine ⟨rfl, rfl, ?_, ?_⟩
  · exact le_max_left _ _
  · exact le_max_left _ _

theorem animateTick_hist (closureHistory : List HistPoint) (rand : Nat → ℚ)
    (now : ℤ) (s : SimState) :
    (animateTick closureHistory rand now s).infectionHistory =
      s.infectionHistory ++
        [⟨toFixed1 (tickElapsedSeconds now s),
          finalInfectedCount closureHistory rand now s⟩] := rfl

theorem toFixed1_close (q : ℚ) : |toFixed1 q - q| ≤ 1 / 20 := by
  unfold toFixed1
  have h := abs_sub_round (q * 10)
  rw [abs_sub_comm] at h
  have heq : ((round (q * 10) : ℤ) : ℚ) / 10 - q = ((round (q * 10) : ℤ) - q * 10) / 10 := by
    ring
  rw [heq, abs_div]
  have h10 : |(10 : ℚ)| = 10 := by norm_num
  rw [h10]
  linarith

theorem idsIndexed_iff (P : List Person) :
    IdsIndexed P ↔ ∀ (k : Nat) (hk : k < P.length), P[k].id = k := by
  constructor
  · intro h k hk
    exact h k P[k] (List.getElem?_eq_getElem hk)
  · intro h k p hp
    rcases List.getElem?_eq_some_iff.mp hp with ⟨hk, hget⟩
    rw [← hget]
    exact h k hk

/-- C1: counterexample.  In `chainPeople`, agents 1 and 2 are Susceptible at
tick start and agent 2 is not within the radius of agent 0 (the only
tick-start Infected agent).  Yet the detection pass records the edge
`1 → 2`: agent 1, infected earlier in the same pass, serves as the source of
an infection and of a transmission edge within the same tick, and agent 2 is
Infected after one tick although it is two hops away — so transitions are
not computed against the set of agents Infected at tick start, and
propagation is not bounded to one hop per tick. -/
theorem c1_counterexample :
    (chainPeople[1]?.map (fun p => p.isDestabilized) = some false) ∧
    (chainPeople[2]?.map (fun p => p.isDestabilized) = some false) ∧
    distanceLtB (0, 0) (9/5, 0) 1 = false ∧
    ((detectPass 1 5 chainPeople).conns.map (fun c => (c.sourceId, c.targetId)) =
      [(0, 1), (1, 2)]) ∧
    ((detectPass 1 5 chainPeople).people[2]?.map (fun p => p.isDestabilized) =
      some true) := by
  decide

/-- C1: amended.  The detection pass iterates over the live, in-place
mutated array, so an agent infected during the pass can serve as a source
for agents scanned later in the same tick (see `c1_counterexample`).  What
does hold: the pass preserves the array length; an agent Infected at tick
start is left untouched (and so remains Infected); and every edge recorded
within the tick is no self-loop, carries the tick timestamp, has a target
that was Susceptible at tick start (with its snapshot position), and has a
source that is Infected by the end of the pass — though not necessarily one
that was Infected at its start. -/
theorem c1_amended (radius : ℚ) (now : ℤ) (P0 : List Person)
    (hidx : IdsIndexed P0) :
    (detectPass radius now P0).people.length = P0.length ∧
    (∀ (k : Nat) (p : Person), P0[k]? = some p → p.isDestabilized = true →
       (detectPass radius now P0).people[k]? = some p) ∧
    (∀ e ∈ (detectPass radius now P0).conns,
       e.sourceId ≠ e.targetId ∧ e.timestamp = now ∧
       (∃ p, P0[e.targetId]? = some p ∧ p.isDestabilized = false ∧
          e.target = p.coordinates) ∧
       (∃ q, (detectPass radius now P0).people[e.sourceId]? = some q ∧
          q.isDestabilized = true)) := by
  obtain ⟨hev, _, hconns, _⟩ := detectPass_inv radius now P0 hidx
  refine ⟨hev.1, ?_, ?_⟩
  · intro k p hp hd
    exact listEvolves_destab hev hp hd
  · intro e he
    obtain ⟨hts, hne, htgt, _, hcur, _⟩ := hconns e he
    exact ⟨hne, hts, htgt, hcur⟩

/-- C1: witness for `c1_amended` at the concrete pool `chainPeople`. -/
theorem c1_witness :
    (detectPass 1 5 chainPeople).people.length = chainPeople.length :=
  (c1_amended 1 5 chainPeople ((idsIndexed_iff chainPeople).mpr (by decide))).1

/-- C2: counterexample.  `handleRadiusChange` performs no validation at all:
a zero and a negative radius are both accepted and stored verbatim, where
the claim requires them to be rejected. -/
theorem c2_counterexample :
    (handleRadiusChange 0 sampleState).infectionRadius = 0 ∧
    (handleRadiusChange (-1/2) sampleState).infectionRadius = -1/2 :=
  ⟨rfl, rfl⟩

/-- C2: amended.  Construction with `populationSize ≤ 0` does fail (the
store to `people[0]` throws, modelled by `generatePeople` returning `none`),
but not with a deliberate configuration error, and `setInfectionRadius`
accepts every value unvalidated.  A non-positive radius still causes no
infection (the distance comparison is never satisfied), so no statistics are
corrupted by it. -/
theorem c2_amended :
    (∀ (count : ℤ) (b : Bounds) (rand : Nat → ℚ) (now : ℤ), count ≤ 0 →
       generatePeople count b rand now = none) ∧
    (∀ (v : ℚ) (s : SimState), (handleRadiusChange v s).infectionRadius = v) ∧
    (∀ (p1 p2 : ℚ × ℚ) (r : ℚ), r ≤ 0 → distanceLtB p1 p2 r = false) := by
  refine ⟨?_, ?_, ?_⟩
  · intro count b rand now h
    unfold generatePeople
    rw [Int.toNat_of_nonpos h]
    rfl
  · intro v s
    rfl
  · intro p1 p2 r h
    unfold distanceLtB
    rw [decide_eq_false_iff_not]
    rintro ⟨h1, _⟩
    linarith

/-- C2: witness for `c2_amended` at concrete inputs. -/
theorem c2_witness :
    generatePeople 0 SF_BOUNDS (fun _ => 1/2) 0 = none ∧
    (handleRadiusChange (-1/2) sampleState).infectionRadius = -1/2 ∧
    distanceLtB (0, 0) (0, 0) 0 = false :=
  ⟨c2_amended.1 0 SF_BOUNDS (fun _ => 1/2) 0 (by decide),
   c2_amended.2.1 (-1/2) sampleState,
   c2_amended.2.2 (0, 0) (0, 0) 0 (by decide)⟩

/-- C5: after the connections update of a tick at time `now`, every
surviving edge is strictly younger than 2000 ms, and every edge of the
appended list (old edges and the tick's fresh edges alike) that is younger
than 2000 ms is retained. -/
theorem c5_eviction (now : ℤ) (prevConnections newConnections : List Conn) :
    (∀ c ∈ updateConnections now prevConnections newConnections,
       now - c.timestamp < 2000) ∧
    (∀ c ∈ prevConnections ++ newConnections, now - c.timestamp < 2000 →
       c ∈ updateConnections now prevConnections newConnections) := by
  constructor
  · intro c hc
    unfold updateConnections at hc
    exact of_decide_eq_true (List.mem_filter.mp hc).2
  · intro c hc h
    unfold updateConnections
    exact List.mem_filter.mpr ⟨hc, decide_eq_true h⟩

/-- C5: witness for `c5_eviction` with one stale edge and one fresh edge. -/
theorem c5_witness :
    (∀ c ∈ updateConnections 2500 ([⟨0, 1, (0, 0), (1, 0), 0⟩] : List Conn)
        ([⟨1, 2, (0, 0), (1, 0), 2500⟩] : List Conn), 2500 - c.timestamp < 2000) ∧
    (∀ c ∈ ([⟨0, 1, (0, 0), (1, 0), 0⟩] : List Conn) ++
        ([⟨1, 2, (0, 0), (1, 0), 2500⟩] : List Conn), 2500 - c.timestamp < 2000 →
       c ∈ updateConnections 2500 ([⟨0, 1, (0, 0), (1, 0), 0⟩] : List Conn)
         ([⟨1, 2, (0, 0), (1, 0), 2500⟩] : List Conn)) :=
  c5_eviction 2500 [⟨0, 1, (0, 0), (1, 0), 0⟩] [⟨1, 2, (0, 0), (1, 0), 2500⟩]

/-- C3: immediately after a reset with population `count > 0`, construction
succeeds; the pool has `count` agents of which exactly the first (agent id
0) is Infected with `infectionTime = now`; the exposed statistics show one
infected agent and a rate of `toFixed1 (100 / count)` — within `1/20` (the
one-decimal rounding of `toFixed(1)`) of `100 / count`; the running maxima
are reseeded to `(1, 1/2)`; the history is exactly `[(0, 1)]`; and the
connection ledger is empty. -/
theorem c3_reset (count : ℤ) (rand : Nat → ℚ) (now : ℤ) (s : SimState)
    (hc : 0 < count) :
    ∃ st, handleResetN count rand now s = some st ∧
      st.people.length = count.toNat ∧
      (∃ p0 rest, st.people = p0 :: rest ∧ p0.id = 0 ∧ p0.isDestabilized = true ∧
        p0.infectionTime = some now ∧ ∀ q ∈ rest, q.isDestabilized = false) ∧
      st.statistics.totalAgents = some st.people.length ∧
      st.statistics.infectedAgents = 1 ∧
      st.maxStats = ⟨1, 1/2⟩ ∧
      st.statistics.infectionRate = toFixed1 (100 / (st.people.length : ℚ)) ∧
      |st.statistics.infectionRate - 100 / (st.people.length : ℚ)| ≤ 1 / 20 ∧
      st.infectionHistory = [⟨0, 1⟩] ∧
      st.connections = [] := by
  obtain ⟨m, hm⟩ : ∃ m, count.toNat = m + 1 := ⟨count.toNat - 1, by omega⟩
  have hq100 : ∀ x : ℚ, 1 / x * 100 = 100 / x := fun x => by ring
  unfold handleResetN generatePeople
  rw [hm, List.range_succ_eq_map, List.map_cons]
  dsimp only
  refine ⟨_, rfl, ?_, ?_, ?_, ?_, ?_, ?_, ?_, ?_, ?_⟩
  · simp only [List.length_cons, List.length_map, List.length_range]
  · refine ⟨_, _, rfl, rfl, rfl, rfl, ?_⟩
    intro q hq
    obtain ⟨i, _, hi⟩ := List.mem_map.mp hq
    rw [← hi]
    rfl
  · rfl
  · rfl
  · rfl
  · dsimp only
    rw [hq100]
  · dsimp only
    rw [hq100]
    exact toFixed1_close _
  · rfl
  · rfl

/-- C3: witness for `c3_reset` at the source's actual population 200. -/
theorem c3_witness :
    ∃ st, handleResetN 200 (fun _ => 1/2) 0 sampleState = some st ∧
      st.people.length = (200 : ℤ).toNat ∧
      (∃ p0 rest, st.people = p0 :: rest ∧ p0.id = 0 ∧ p0.isDestabilized = true ∧
        p0.infectionTime = some 0 ∧ ∀ q ∈ rest, q.isDestabilized = false) ∧
      st.statistics.totalAgents = some st.people.length ∧
      st.statistics.infectedAgents = 1 ∧
      st.maxStats = ⟨1, 1/2⟩ ∧
      st.statistics.infectionRate = toFixed1 (100 / (st.people.length : ℚ)) ∧
      |st.statistics.infectionRate - 100 / (st.people.length : ℚ)| ≤ 1 / 20 ∧
      st.infectionHistory = [⟨0, 1⟩] ∧
      st.connections = [] :=
  c3_reset 200 (fun _ => 1/2) 0 sampleState (by decide)

/-- C4: within one run, the exposed statistics are the running maxima
(`setStatistics(maxStatsRef.current)`) and hence monotone: across any two
ticks `t1 < t2`, the displayed infected count and rate never decrease.  The
two hypotheses say the starting state exposes its maxima, which is exactly
what `handleResetN` establishes. -/
theorem c4_monotone (closureHistory : List HistPoint) (rand : Nat → Nat → ℚ)
    (τ : Nat → ℤ) (s0 : SimState)
    (h1 : s0.statistics.infectedAgents = s0.maxStats.infectedAgents)
    (h2 : s0.statistics.infectionRate = s0.maxStats.infectionRate)
    (t1 t2 : Nat) (h : t1 < t2) :
    (tickSeq closureHistory rand τ s0 t1).statistics.infectedAgents ≤
      (tickSeq closureHistory rand τ s0 t2).statistics.infectedAgents ∧
    (tickSeq closureHistory rand τ s0 t1).statistics.infectionRate ≤
      (tickSeq closureHistory rand τ s0 t2).statistics.infectionRate := by
  have hsm : ∀ k, (tickSeq closureHistory rand τ s0 k).statistics.infectedAgents =
      (tickSeq closureHistory rand τ s0 k).maxStats.infectedAgents ∧
      (tickSeq closureHistory rand τ s0 k).statistics.infectionRate =
      (tickSeq closureHistory rand τ s0 k).maxStats.infectionRate := by
    intro k
    cases k with
    | zero => exact ⟨h1, h2⟩
    | succ m =>
      obtain ⟨e1, e2, _, _⟩ := animateTick_stats closureHistory (rand m) (τ m)
        (tickSeq closureHistory rand τ s0 m)
      exact ⟨e1, e2⟩
  have hmono1 : ∀ a b : Nat, a ≤ b →
      (tickSeq closureHistory rand τ s0 a).maxStats.infectedAgents ≤
        (tickSeq closureHistory rand τ s0 b).maxStats.infectedAgents := by
    intro a b hab
    induction hab with
    | refl => exact le_refl _
    | step hmb ih =>
      exact le_trans ih (animateTick_stats _ _ _ _).2.2.1
  have hmono2 : ∀ a b : Nat, a ≤ b →
      (tickSeq closureHistory rand τ s0 a).maxStats.infectionRate ≤
        (tickSeq closureHistory rand τ s0 b).maxStats.infectionRate := by
    intro a b hab
    induction hab with
    | refl => exact le_refl _
    | step hmb ih =>
      exact le_trans ih (animateTick_stats _ _ _ _).2.2.2
  rw [(hsm t1).1, (hsm t1).2, (hsm t2).1, (hsm t2).2]
  exact ⟨hmono1 t1 t2 (le_of_lt h), hmono2 t1 t2 (le_of_lt h)⟩

/-- C4: witness for `c4_monotone` on a one-agent state across one tick. -/
theorem c4_witness :
    (tickSeq [⟨0, 1⟩] (fun _ _ => 1/2) (fun _ => 30) sampleState 0).statistics.infectedAgents ≤
      (tickSeq [⟨0, 1⟩] (fun _ _ => 1/2) (fun _ => 30) sampleState 1).statistics.infectedAgents ∧
    (tickSeq [⟨0, 1⟩] (fun _ _ => 1/2) (fun _ => 30) sampleState 0).statistics.infectionRate ≤
      (tickSeq [⟨0, 1⟩] (fun _ _ => 1/2) (fun _ => 30) sampleState 1).statistics.infectionRate :=
  c4_monotone [⟨0, 1⟩] (fun _ _ => 1/2) (fun _ => 30) sampleState rfl rfl 0 1 (by decide)

/-- C6: counterexample.  In `twoSourcesPeople`, agent 1 is Infected and
agent 2 Susceptible at tick start, with their distance below the radius
3/2.  Agent 2 is duly infected, but the only edge recorded is `0 → 2`: no
edge from agent 1's position to agent 2's position exists, because agent 0
(earlier in iteration order) infected agent 2 first — refuting "exactly one
transmission edge recorded from A's snapshot position to B's snapshot
position" for A = agent 1. -/
theorem c6_counterexample :
    (twoSourcesPeople[1]?.map (fun p => p.isDestabilized) = some true) ∧
    (twoSourcesPeople[2]?.map (fun p => p.isDestabilized) = some false) ∧
    distanceLtB (2, 0) (1, 0) (3/2) = true ∧
    ((detectPass (3/2) 5 twoSourcesPeople).conns.map
      (fun c => (c.sourceId, c.targetId)) = [(0, 2)]) ∧
    ((detectPass (3/2) 5 twoSourcesPeople).conns.filter
      (fun c => decide (c.sourceId = 1))).length = 0 := by
  decide

/-- C6: amended.  If A is Infected and B Susceptible at tick start with
their post-movement distance below the radius, then after the pass B is
Infected with `infectionTime = now` (and otherwise unchanged), and exactly
one transmission edge with target B is recorded that tick; the edge
snapshots B's position, carries the tick timestamp, is no self-loop, and
its source position is within the radius of B — but the source need not be
A: it is whichever Infected agent's scan reached B first. -/
theorem c6_amended (radius : ℚ) (now : ℤ) (P0 : List Person)
    (hidx : IdsIndexed P0) (i j : Nat) (A B : Person)
    (hA : P0[i]? = some A) (hAd : A.isDestabilized = true)
    (hB : P0[j]? = some B) (hBs : B.isDestabilized = false)
    (hdist : distanceLtB A.coordinates B.coordinates radius = true) :
    (detectPass radius now P0).people[j]? = some (infectPerson now B) ∧
    countTarget (detectPass radius now P0).conns j = 1 ∧
    ∀ e ∈ (detectPass radius now P0).conns, e.targetId = j →
      e.target = B.coordinates ∧ e.timestamp = now ∧ e.sourceId ≠ j ∧
      distanceLtB e.source e.target radius = true :=
  detectPass_target radius now P0 hidx i j A B hA hAd hB hBs hdist

/-- C6: witness for `c6_amended` on `chainPeople` with A = agent 0 and
B = agent 1. -/
theorem c6_witness :
    (detectPass 1 5 chainPeople).people[1]? =
      some (infectPerson 5 { basePerson with id := 1, coordinates := (9/10, 0) }) ∧
    countTarget (detectPass 1 5 chainPeople).conns 1 = 1 ∧
    ∀ e ∈ (detectPass 1 5 chainPeople).conns, e.targetId = 1 →
      e.target = ({ basePerson with id := 1, coordinates := (9/10, 0) } : Person).coordinates ∧
      e.timestamp = 5 ∧ e.sourceId ≠ 1 ∧
      distanceLtB e.source e.target 1 = true :=
  c6_amended 1 5 chainPeople ((idsIndexed_iff chainPeople).mpr (by decide)) 0 1
    { basePerson with id := 0, coordinates := (0, 0), isDestabilized := true, infectionTime := some 0 }
    { basePerson with id := 1, coordinates := (9/10, 0) }
    (by decide) (by decide) (by decide) (by decide) (by decide)

/-- C7: one movement step.  The step advances `progress` by
`speed * (dt/30)`; if the result reaches 1 the agent keeps its position,
resets `progress` to 0 and receives a fresh destination inside the bounds
(the affine image of the two uniform draws); otherwise each coordinate
moves toward the destination by the fraction
`min (speed * (dt/30)) (1/100)` of the remaining distance. -/
theorem c7_movement (b : Bounds) (dt d1 d2 : ℚ) (p : Person)
    (hb : boundsWF b) (hd10 : 0 ≤ d1) (hd11 : d1 < 1) (hd20 : 0 ≤ d2)
    (hd21 : d2 < 1) :
    (1 ≤ p.progress + p.speed * (dt / 30) →
       (movePerson b dt d1 d2 p).coordinates = p.coordinates ∧
       (movePerson b dt d1 d2 p).progress = 0 ∧
       (movePerson b dt d1 d2 p).destination =
         (b.lngMin + d1 * (b.lngMax - b.lngMin),
          b.latMin + d2 * (b.latMax - b.latMin)) ∧
       inBounds b (movePerson b dt d1 d2 p).destination) ∧
    (¬ 1 ≤ p.progress + p.speed * (dt / 30) →
       (movePerson b dt d1 d2 p).destination = p.destination ∧
       (movePerson b dt d1 d2 p).progress = p.progress + p.speed * (dt / 30) ∧
       (movePerson b dt d1 d2 p).coordinates.1 =
         p.coordinates.1 + (p.destination.1 - p.coordinates.1) *
           min (p.speed * (dt / 30)) (1 / 100) ∧
       (movePerson b dt d1 d2 p).coordinates.2 =
         p.coordinates.2 + (p.destination.2 - p.coordinates.2) *
           min (p.speed * (dt / 30)) (1 / 100)) := by
  unfold movePerson
  dsimp only
  constructor
  · intro h
    rw [if_pos h]
    exact ⟨rfl, rfl, rfl,
      (sample_mem hb.1 hd10 hd11).1, (sample_mem hb.1 hd10 hd11).2,
      (sample_mem hb.2 hd20 hd21).1, (sample_mem hb.2 hd20 hd21).2⟩
  · intro h
    rw [if_neg h]
    exact ⟨rfl, rfl, rfl, rfl⟩

/-- C7: witness for `c7_movement` on a slow agent (non-arrival branch) in
`SF_BOUNDS`. -/
theorem c7_witness :
    (1 ≤ onePerson.progress + onePerson.speed * (30 / 30) →
       (movePerson SF_BOUNDS 30 (1/2) (1/2) onePerson).coordinates = onePerson.coordinates ∧
       (movePerson SF_BOUNDS 30 (1/2) (1/2) onePerson).progress = 0 ∧
       (movePerson SF_BOUNDS 30 (1/2) (1/2) onePerson).destination =
         (SF_BOUNDS.lngMin + 1/2 * (SF_BOUNDS.lngMax - SF_BOUNDS.lngMin),
          SF_BOUNDS.latMin + 1/2 * (SF_BOUNDS.latMax - SF_BOUNDS.latMin)) ∧
       inBounds SF_BOUNDS (movePerson SF_BOUNDS 30 (1/2) (1/2) onePerson).destination) ∧
    (¬ 1 ≤ onePerson.progress + onePerson.speed * (30 / 30) →
       (movePerson SF_BOUNDS 30 (1/2) (1/2) onePerson).destination = onePerson.destination ∧
       (movePerson SF_BOUNDS 30 (1/2) (1/2) onePerson).progress =
         onePerson.progress + onePerson.speed * (30 / 30) ∧
       (movePerson SF_BOUNDS 30 (1/2) (1/2) onePerson).coordinates.1 =
         onePerson.coordinates.1 + (onePerson.destination.1 - onePerson.coordinates.1) *
           min (onePerson.speed * (30 / 30)) (1 / 100) ∧
       (movePerson SF_BOUNDS 30 (1/2) (1/2) onePerson).coordinates.2 =
         onePerson.coordinates.2 + (onePerson.destination.2 - onePerson.coordinates.2) *
           min (onePerson.speed * (30 / 30)) (1 / 100)) :=
  c7_movement SF_BOUNDS 30 (1/2) (1/2) onePerson (by constructor <;> norm_num [SF_BOUNDS])
    (by decide) (by decide) (by decide) (by decide)

/-- C8: containment.  Starting from any successful reset, and for random
streams within the `Math.random` contract and non-decreasing tick times,
every agent's position and destination stay inside `SF_BOUNDS` at every
tick: the initial sampling lands inside the bounds and each movement step
(a convex step capped at the fraction 1/100, or a fresh in-bounds
destination on arrival) keeps them there. -/
theorem c8_containment (closureHistory : List HistPoint) (count : ℤ)
    (rand0 : Nat → ℚ) (now0 : ℤ)
    (sPrev : SimState) (rand : Nat → Nat → ℚ) (τ : Nat → ℤ) (st : SimState)
    (hreset : handleResetN count rand0 now0 sPrev = some st)
    (hr0 : randUnit rand0) (hr : ∀ k, randUnit (rand k))
    (hτ0 : sPrev.lastUpdateTime ≤ τ 0) (hτ : ∀ k, τ k ≤ τ (k + 1)) :
    ∀ t, ∀ p ∈ (tickSeq closureHistory rand τ st t).people,
      inBounds SF_BOUNDS p.coordinates ∧ inBounds SF_BOUNDS p.destination := by
  unfold handleResetN at hreset
  split at hreset
  · cases hreset
  · rename_i P hgen
    have hst := Option.some.inj hreset
    have hok : peopleOK SF_BOUNDS P := generatePeople_ok sfBoundsWF hr0 hgen
    have h1 : st.lastUpdateTime ≤ τ 0 := by
      rw [← hst]
      exact hτ0
    have h2 : peopleOK SF_BOUNDS st.people := by
      rw [← hst]
      exact hok
    have h := @tickSeq_ok closureHistory rand τ st hr h1 hτ h2
    intro t p hp
    exact ⟨((h t).1 p hp).1, ((h t).1 p hp).2.1⟩

/-- C8: witness for `c8_containment` with a one-agent reset, after one
tick. -/
theorem c8_witness :
    ((tickSeq [⟨0, 1⟩] (fun _ _ => 1/2) (fun _ => 0)
        ((handleResetN 1 (fun _ => 1/2) 0 sampleState).getD sampleState) 1).people.all
      (fun p => decide (inBounds SF_BOUNDS p.coordinates ∧
        inBounds SF_BOUNDS p.destination))) = true := by
  apply List.all_eq_true.mpr
  intro p hp
  exact decide_eq_true
    (c8_containment [⟨0, 1⟩] 1 (fun _ => 1/2) 0 sampleState (fun _ _ => 1/2)
      (fun _ => 0)
      ((handleResetN 1 (fun _ => 1/2) 0 sampleState).getD sampleState)
      (by decide)
      (fun _ => (by decide : (0 : ℚ) ≤ 1/2 ∧ (1 : ℚ)/2 < 1))
      (fun _ _ => (by decide : (0 : ℚ) ≤ 1/2 ∧ (1 : ℚ)/2 < 1))
      (by decide)
      (fun _ => (by decide : (0 : ℤ) ≤ 0)) 1 p hp)

/-- C9: counterexample.  The tick uses the raw difference
`now - lastUpdateTimeRef.current` as its `dt`: nothing clamps it and
nothing recomputes `lastTickAt` at resume.  Concretely, after a simulated
10^9 ms gap (`pausedState.lastUpdateTime = 0`, tick at `now = 10^9`) the
whole gap arrives as `dt`, and the agent's `progress` advances by the full
`speed * (dt/30) = 1/100` — a clamped `dt` would have produced a far
smaller advance for this speed (3·10⁻¹⁰ per 30 ms).  The agent's position
still moves by only the capped 1/100 fraction of its remaining distance,
which is the second half of the claim. -/
theorem c9_counterexample :
    tickDelta 1000000000 pausedState.lastUpdateTime = 1000000000 ∧
    (animateTick pausedState.infectionHistory (fun _ => 1/2) 1000000000
        pausedState).people =
      [{ slowPerson with coordinates := (1/100, 0), progress := 1/100 }] := by
  decide

/-- C9: amended.  The `dt` of a tick is the raw unclamped difference
`now - lastUpdateTime` (`tickDelta`); nevertheless, for any nonnegative
`dt` — however large — and nonnegative speed, a movement step changes each
coordinate by at most the step-cap fraction 1/100 of the remaining distance
to the destination (an arriving agent's position does not change at all),
so no catch-up jump in position is possible. -/
theorem c9_amended (b : Bounds) (dt d1 d2 : ℚ) (p : Person)
    (hdt : 0 ≤ dt) (hsp : 0 ≤ p.speed) :
    (∀ now lastUpdateTime : ℤ, tickDelta now lastUpdateTime = now - lastUpdateTime) ∧
    |(movePerson b dt d1 d2 p).coordinates.1 - p.coordinates.1| ≤
      1 / 100 * |p.destination.1 - p.coordinates.1| ∧
    |(movePerson b dt d1 d2 p).coordinates.2 - p.coordinates.2| ≤
      1 / 100 * |p.destination.2 - p.coordinates.2| := by
  obtain ⟨hs0, hs1⟩ := step_bounds hsp hdt
  refine ⟨fun _ _ => rfl, ?_, ?_⟩
  · unfold movePerson
    dsimp only
    split
    · rw [sub_self, abs_zero]
      positivity
    · rw [add_sub_cancel_left, abs_mul, abs_of_nonneg hs0]
      nlinarith [abs_nonneg (p.destination.1 - p.coordinates.1)]
  · unfold movePerson
    dsimp only
    split
    · rw [sub_self, abs_zero]
      positivity
    · rw [add_sub_cancel_left, abs_mul, abs_of_nonneg hs0]
      nlinarith [abs_nonneg (p.destination.2 - p.coordinates.2)]

/-- C9: witness for `c9_amended` at the enormous `dt = 10^9`. -/
theorem c9_witness :
    (∀ now lastUpdateTime : ℤ, tickDelta now lastUpdateTime = now - lastUpdateTime) ∧
    |(movePerson SF_BOUNDS 1000000000 (1/2) (1/2) slowPerson).coordinates.1 -
        slowPerson.coordinates.1| ≤
      1 / 100 * |slowPerson.destination.1 - slowPerson.coordinates.1| ∧
    |(movePerson SF_BOUNDS 1000000000 (1/2) (1/2) slowPerson).coordinates.2 -
        slowPerson.coordinates.2| ≤
      1 / 100 * |slowPerson.destination.2 - slowPerson.coordinates.2| :=
  c9_amended SF_BOUNDS 1000000000 (1/2) (1/2) slowPerson (by decide) (by decide)

/-- C10: counterexample.  Two ticks of `dipState` under one effect
activation whose closure captured the reset history `[(0, 1)]` (frozen: the
effect's dependency array has no `infectionHistory`).  The first 30 ms
frame counts both Infected agents and appends `max 2 1 = 2`; on the second
frame agent 0 arrives at its destination, so the arrival branch skips the
`infectedCount++` line, the count drops to 1, and the tick appends
`max 1 1 = 1` — the largest value *already recorded* is 2, but the code's
maximum is the activation-time maximum 1.  The recorded series is
`[1, 2, 1]`: it dips, refuting both the claimed appended value and the
claimed monotonicity of the series. -/
theorem c10_counterexample :
    histInfecteds (tickSeq dipState.infectionHistory (fun _ _ => 1/2)
      (fun k => 30 + 30 * (k : ℤ)) dipState 2) = [1, 2, 1] ∧
    ¬ List.Sorted (· ≤ ·) (histInfecteds (tickSeq dipState.infectionHistory
      (fun _ _ => 1/2) (fun k => 30 + 30 * (k : ℤ)) dipState 2)) := by
  decide

/-- C10: amended.  Each tick appends exactly one history point whose
infected value is `max infectedCount (currentMaxInfected closureHistory)`,
where `infectedCount` counts only Infected agents that did *not* arrive at
their destination this frame (`tickCounted`), and where the second operand
is the maximum over the history *frozen in the effect closure at
activation* (the dependency array omits `infectionHistory`), not the
largest value already recorded.  Consequently the recorded series is not
non-decreasing (see `c10_counterexample`); what holds is the weaker floor:
every point of the run's history is either inherited from the activation
state or carries at least that frozen activation-time maximum. -/
theorem c10_amended (closureHistory : List HistPoint) (rand : Nat → Nat → ℚ)
    (τ : Nat → ℤ) (s0 : SimState) :
    (∀ k, (tickSeq closureHistory rand τ s0 (k + 1)).infectionHistory =
       (tickSeq closureHistory rand τ s0 k).infectionHistory ++
         [⟨toFixed1 (tickElapsedSeconds (τ k) (tickSeq closureHistory rand τ s0 k)),
           finalInfectedCount closureHistory (rand k) (τ k)
             (tickSeq closureHistory rand τ s0 k)⟩]) ∧
    (∀ k, ∀ x ∈ (tickSeq closureHistory rand τ s0 k).infectionHistory,
       x ∈ s0.infectionHistory ∨
         currentMaxInfected closureHistory ≤ x.infected) := by
  have ha : ∀ k, (tickSeq closureHistory rand τ s0 (k + 1)).infectionHistory =
      (tickSeq closureHistory rand τ s0 k).infectionHistory ++
        [⟨toFixed1 (tickElapsedSeconds (τ k) (tickSeq closureHistory rand τ s0 k)),
          finalInfectedCount closureHistory (rand k) (τ k)
            (tickSeq closureHistory rand τ s0 k)⟩] :=
    fun k => rfl
  refine ⟨ha, ?_⟩
  intro k
  induction k with
  | zero =>
    intro x hx
    exact Or.inl hx
  | succ m ih =>
    intro x hx
    rw [ha m] at hx
    rcases List.mem_append.mp hx with h | h
    · exact ih x h
    · rw [List.mem_singleton] at h
      subst h
      exact Or.inr (le_max_right _ _)

/-- C10: witness for `c10_amended` on a one-agent state across one tick,
with the closure history of an activation directly after reset. -/
theorem c10_witness :
    (∀ k, (tickSeq [⟨0, 1⟩] (fun _ _ => 1/2) (fun _ => 30) sampleState (k + 1)).infectionHistory =
       (tickSeq [⟨0, 1⟩] (fun _ _ => 1/2) (fun _ => 30) sampleState k).infectionHistory ++
         [⟨toFixed1 (tickElapsedSeconds 30 (tickSeq [⟨0, 1⟩] (fun _ _ => 1/2) (fun _ => 30) sampleState k)),
           finalInfectedCount [⟨0, 1⟩] (fun _ => 1/2) 30
             (tickSeq [⟨0, 1⟩] (fun _ _ => 1/2) (fun _ => 30) sampleState k)⟩]) ∧
    (∀ k, ∀ x ∈ (tickSeq [⟨0, 1⟩] (fun _ _ => 1/2) (fun _ => 30) sampleState k).infectionHistory,
       x ∈ sampleState.infectionHistory ∨
         currentMaxInfected [⟨0, 1⟩] ≤ x.infected) :=
  c10_amended [⟨0, 1⟩] (fun _ _ => 1/2) (fun _ => 30) sampleState
